import Mathlib

/-!
Shallow embedding of the simulation core of the Nebula-Rush racing game,
together with proofs settling the frozen claims about its specification.

Numeric values carried by the JavaScript code (IEEE doubles) are embedded
as rationals (`ℚ`); the real-valued geometry of the track-frame generator
is embedded over `ℝ`.  The transcendental library functions `Math.sin`,
`Math.cos` and `Math.pow`, which the per-tick integrator applies to
run-time data, are abstracted as an explicit `MathOracle` parameter of the
integrator; every theorem about the integrator quantifies over all
oracles, so in particular it holds for the true mathematical functions.
Concrete executions used in counterexamples and witnesses pick inputs
(yaw = 0, exponent dt = 1) at which a concrete reference oracle agrees
exactly with `Math.sin`, `Math.cos` and `Math.pow`.
-/

namespace NebulaRush

/-- Input snapshot: which logical keys the `InputSource` reports as held.
`up` stands for ArrowUp/w, `q`/`e` are the yaw keys, `right` for
ArrowRight/d, `left` for ArrowLeft/a, `jump` for Space/ArrowDown/s
(PhysicsEngine reads exactly these key groups). -/
structure Input where
  up : Bool
  q : Bool
  e : Bool
  right : Bool
  left : Bool
  jump : Bool
deriving DecidableEq

/-- The all-keys-released input snapshot. -/
def Input.none : Input := ⟨false, false, false, false, false, false⟩

/-- Abstraction of the transcendental library functions the integrator
calls on run-time data: `Math.sin`, `Math.cos`, and the two-argument
`Math.pow`.  Theorems about the integrator quantify over every oracle. -/
structure MathOracle where
  sin : ℚ → ℚ
  cos : ℚ → ℚ
  pow : ℚ → ℚ → ℚ

/-- Reference oracle for concrete executions: it agrees with the true
`Math.sin`, `Math.cos`, `Math.pow` on the arguments those executions
produce (`sin 0 = 0`, `cos 0 = 1`, and `pow b 1 = b`). -/
def refOracle : MathOracle := ⟨fun _ => 0, fun _ => 1, fun b _ => b⟩

/-- The `GameState` record of `PhysicsEngine.ts` (velocity is kept as the
two scalars `vx` = lateral `velocity.x`, `vy` = longitudinal
`velocity.y`). -/
structure GameState where
  trackProgress : ℚ
  vx : ℚ
  vy : ℚ
  yaw : ℚ
  lateralPosition : ℚ
  verticalPosition : ℚ
  verticalVelocity : ℚ
  rotation : ℚ
  targetRotation : ℚ
  hoverHeight : ℚ
  hoverStrength : ℚ
  hoverDamping : ℚ
  gravity : ℚ
  throttle : ℚ
  friction : ℚ
  slideFactor : ℚ
  accelFactor : ℚ
  turnSpeed : ℚ
  strafeSpeed : ℚ
  cameraLateral : ℚ
  boostTimer : ℚ
  hasCrossedStartLine : Bool
deriving DecidableEq

/-- Racing-grid start parameter `PLAYER_START_T` (94% around the track). -/
def PLAYER_START_T : ℚ := 94/100

/-- The `INITIAL_GAME_STATE` constant of `PhysicsEngine.ts`. -/
def INITIAL_GAME_STATE : GameState :=
  { trackProgress := PLAYER_START_T
    vx := 0
    vy := 0
    yaw := 0
    lateralPosition := 0
    verticalPosition := 2
    verticalVelocity := 0
    rotation := 0
    targetRotation := 0
    hoverHeight := 2
    hoverStrength := 15/100
    hoverDamping := 3/10
    gravity := -(15/1000)
    throttle := 0
    friction := 99/100
    slideFactor := 99/100
    accelFactor := 5/10
    turnSpeed := 1/1000
    strafeSpeed := 1/100
    cameraLateral := 0
    boostTimer := 0
    hasCrossedStartLine := false }

/-- A boost pad region (`BoostPad` of `PhysicsEngine.ts`). -/
structure BoostPad where
  trackProgress : ℚ
  lateralPosition : ℚ
  width : ℚ
  length : ℚ
deriving DecidableEq

/-- The module-level `BOOST_PADS` pad list of `PhysicsEngine.ts`. -/
def BOOST_PADS : List BoostPad :=
  [ ⟨15/100, 0, 40, 2/100⟩
  , ⟨35/100, -30, 40, 2/100⟩
  , ⟨55/100, 30, 40, 2/100⟩
  , ⟨85/100, 0, 40, 2/100⟩ ]

/-- The lap signal passed to the `onLapComplete` callback: `start` is the
numeric signal `1` (first crossing ever), `increment` the string signal
INCREMENT (every later forward crossing). -/
inductive LapEvent where
  | start
  | increment
deriving DecidableEq

/-- JavaScript `Math.sign` on rationals. -/
def jsSign (x : ℚ) : ℚ := if 0 < x then 1 else if x < 0 then -1 else 0

/-- JavaScript `Math.abs` on rationals. -/
def jsAbs (x : ℚ) : ℚ := if x < 0 then -x else x

/-- Step 1 of `updatePhysics`: throttle ramps toward 1 at rate 0.05 per
reference tick while the race has started and a forward key is held,
otherwise decays toward 0 at rate 0.03. -/
def stepThrottle (i : Input) (dt : ℚ) (race : Bool) (s : GameState) : GameState :=
  if race && i.up then
    { s with throttle := min (s.throttle + (5/100) * dt) 1 }
  else
    { s with throttle := max (s.throttle - (3/100) * dt) 0 }

/-- Step 2 of `updatePhysics`: steering keys rotate the yaw; with no
steering key held the yaw self-aligns by the factor `Math.pow(0.98, dt)`
and the visual roll target resets to 0. -/
def stepYaw (i : Input) (o : MathOracle) (dt : ℚ) (s : GameState) : GameState :=
  if i.q then { s with yaw := s.yaw + s.turnSpeed * dt }
  else if i.e then { s with yaw := s.yaw - s.turnSpeed * dt }
  else { s with yaw := s.yaw * o.pow (98/100) dt, targetRotation := 0 }

/-- Step 3 of `updatePhysics`: main thruster.  While `boostTimer > 0` the
thrust power is multiplied by 1.35 and the timer loses `dt / 60`
(approximate seconds at 60 fps); the yaw-rotated thrust is added to the
velocity. -/
def stepThrust (o : MathOracle) (dt : ℚ) (s : GameState) : GameState :=
  let basePower := s.throttle * s.accelFactor
  let thrustPower := if 0 < s.boostTimer then basePower * (135/100) else basePower
  let boostTimer := if 0 < s.boostTimer then s.boostTimer - dt / 60 else s.boostTimer
  { s with
    boostTimer := boostTimer
    vx := s.vx - o.sin s.yaw * thrustPower
    vy := s.vy + o.cos s.yaw * thrustPower }

/-- Step 4 of `updatePhysics`: side thrusters; a right strafe is applied
first, then a left strafe, each also setting the visual roll target. -/
def stepStrafe (i : Input) (dt : ℚ) (s : GameState) : GameState :=
  let s := if i.right then { s with vx := s.vx + s.strafeSpeed * dt, targetRotation := 4/10 } else s
  if i.left then { s with vx := s.vx - s.strafeSpeed * dt, targetRotation := -(4/10) } else s

/-- Step 5 of `updatePhysics`: drag, computed as multiplication by
`Math.pow(friction, dt)` longitudinally and `Math.pow(slideFactor, dt)`
laterally. -/
def stepDrag (o : MathOracle) (dt : ℚ) (s : GameState) : GameState :=
  { s with vy := s.vy * o.pow s.friction dt, vx := s.vx * o.pow s.slideFactor dt }

/-- Step 6 of `updatePhysics`: the jump key accumulates upward velocity
while below 1.5 times the hover height and below the velocity cap 0.25. -/
def stepJump (i : Input) (dt : ℚ) (s : GameState) : GameState :=
  if i.jump then
    if s.verticalPosition < s.hoverHeight * (15/10) then
      if s.verticalVelocity < 25/100 then
        { s with verticalVelocity := s.verticalVelocity + (5/100) * dt }
      else s
    else s
  else s

/-- The state after steps 1-6 of `updatePhysics`, i.e. just before the
boost-pad scan and the position update. -/
def preMoveState (s : GameState) (i : Input) (o : MathOracle) (dt : ℚ) (race : Bool) :
    GameState :=
  stepJump i dt (stepDrag o dt (stepStrafe i dt (stepThrust o dt (stepYaw i o dt
    (stepThrottle i dt race s)))))

/-- The boost-pad hit test of `updatePhysics`: the craft is inside a pad
region when the plain linear difference of track progresses is below half
the pad length and the lateral offset is below half the pad width. -/
def padHit (pad : BoostPad) (s : GameState) : Prop :=
  jsAbs (s.trackProgress - pad.trackProgress) < pad.length / 2 ∧
  jsAbs (s.lateralPosition - pad.lateralPosition) < pad.width / 2

instance (pad : BoostPad) (s : GameState) : Decidable (padHit pad s) :=
  inferInstanceAs (Decidable (_ ∧ _))

/-- The `BOOST_PADS.forEach` scan of `updatePhysics`: each pad the craft
is currently inside re-arms `boostTimer` to exactly 5.0 seconds. -/
def applyBoostPads (pads : List BoostPad) (s : GameState) : GameState :=
  pads.foldl (fun st pad => if padHit pad st then { st with boostTimer := 5 } else st) s

/-- The lap-counting progress update of `updatePhysics`: the raw progress
change is added; overflow past 1.0 subtracts 1.0 and reports a lap event
(the `start` signal on the first crossing ever, `increment` afterwards);
underflow below 0.0 adds 1.0 silently. -/
def stepProgress (tl : ℚ) (dt : ℚ) (s : GameState) : GameState × Option LapEvent :=
  let progressChange := s.vy * dt / tl
  let p := s.trackProgress + progressChange
  if 1 ≤ p then
    if s.hasCrossedStartLine then
      ({ s with trackProgress := p - 1 }, some .increment)
    else
      ({ s with trackProgress := p - 1, hasCrossedStartLine := true }, some .start)
  else if p < 0 then
    ({ s with trackProgress := p + 1 }, Option.none)
  else
    ({ s with trackProgress := p }, Option.none)

/-- Lateral position update of `updatePhysics`. -/
def stepLateral (dt : ℚ) (s : GameState) : GameState :=
  { s with lateralPosition := s.lateralPosition + s.vx * dt }

/-- Vertical hover physics of `updatePhysics`: gravity, then a damped
spring while below hover height, then position integration. -/
def stepVertical (dt : ℚ) (s : GameState) : GameState :=
  let vv := s.verticalVelocity + s.gravity * dt
  let vv :=
    if s.verticalPosition < s.hoverHeight then
      let displacement := s.hoverHeight - s.verticalPosition
      let springForce := displacement * s.hoverStrength
      let dampingForce := -vv * s.hoverDamping
      vv + (springForce + dampingForce) * dt
    else vv
  { s with verticalVelocity := vv, verticalPosition := s.verticalPosition + vv * dt }

/-- Soft-wall block of `checkCollision`: beyond the soft limit (55.0) a
repulsive lateral force proportional to penetration is applied, and while
still moving into the wall the lateral velocity is hard-bounced (times
-0.4) within 1.0 unit of the visual wall or soft-dragged (times 0.95)
further out. -/
def softWall (s : GameState) : GameState :=
  let visualWallLimit : ℚ := 60
  let softWallLimit : ℚ := visualWallLimit - 5
  if softWallLimit < jsAbs s.lateralPosition then
    let penetration := jsAbs s.lateralPosition - softWallLimit
    let sign := jsSign s.lateralPosition
    let vx := s.vx - sign * penetration * 2
    let vx :=
      if 0 < sign * vx then
        if visualWallLimit - 1 < jsAbs s.lateralPosition then vx * (-(4/10)) else vx * (95/100)
      else vx
    { s with vx := vx }
  else s

/-- Hard-clamp block of `checkCollision`: beyond the visual wall limit
(60.0) the lateral position is clamped to `sign * 59.9` and the lateral
velocity is reversed at -0.2 of its magnitude. -/
def hardClamp (s : GameState) : GameState :=
  if 60 < jsAbs s.lateralPosition then
    { s with lateralPosition := jsSign s.lateralPosition * (60 - 1/10), vx := s.vx * (-(2/10)) }
  else s

/-- Ground-floor block of `checkCollision`: the vertical position is kept
at or above 1.5, zeroing downward vertical velocity on contact. -/
def groundFloor (s : GameState) : GameState :=
  if s.verticalPosition < 3/2 then
    { s with
      verticalPosition := 3/2
      verticalVelocity := if s.verticalVelocity < 0 then 0 else s.verticalVelocity }
  else s

/-- The `checkCollision` routine of `PhysicsEngine.ts`: soft wall force,
hard lateral clamp, then the ground floor. -/
def checkCollision (s : GameState) : GameState :=
  groundFloor (hardClamp (softWall s))

/-- Visual lag filters at the end of `updatePhysics` (roll toward its
target at rate 0.1, camera lateral toward the ship at rate 0.05). -/
def stepVisual (dt : ℚ) (s : GameState) : GameState :=
  { s with
    rotation := s.rotation + (s.targetRotation - s.rotation) * (1/10) * dt
    cameraLateral := s.cameraLateral + (s.lateralPosition - s.cameraLateral) * (5/100) * dt }

/-- The `updatePhysics` tick of `PhysicsEngine.ts`, parameterized by the
pad list the boost scan walks (the source closes over the module constant
`BOOST_PADS`; see `updatePhysics`).  Returns the updated state together
with the lap signal passed to `onLapComplete`, if any. -/
def updatePhysicsWith (pads : List BoostPad) (s : GameState) (i : Input) (o : MathOracle)
    (tl : ℚ) (dt : ℚ) (race : Bool) : GameState × Option LapEvent :=
  let pre := preMoveState s i o dt race
  let padded := applyBoostPads pads pre
  let moved := stepProgress tl dt padded
  let final := stepVisual dt (checkCollision (stepVertical dt (stepLateral dt moved.1)))
  (final, moved.2)

/-- The `updatePhysics` tick exactly as in the source, scanning the
module-level `BOOST_PADS`. -/
def updatePhysics (s : GameState) (i : Input) (o : MathOracle) (tl : ℚ) (dt : ℚ)
    (race : Bool) : GameState × Option LapEvent :=
  updatePhysicsWith BOOST_PADS s i o tl dt race

/-- The per-craft race record of the `Ship` class: its mutable
`GameState` plus the lap counter (0 = grid), the finished flag, and the
latched finish time (a `Date.now()` timestamp in the source). -/
structure Ship where
  state : GameState
  lap : ℚ
  finished : Bool
  finishTime : ℚ
deriving DecidableEq

/-- `Ship.getTotalProgress`: the lap count plus the fractional progress
of the current lap. -/
def Ship.getTotalProgress (sh : Ship) : ℚ :=
  sh.lap + sh.state.trackProgress

/-- `Ship.update`: one physics tick through `updatePhysics` with the
lap-signal handler of `Ship.ts` — lap events are ignored once finished;
the signal 1 sets `lap` to 1; the INCREMENT signal increments `lap` and,
when `lap` first exceeds 5, latches `finished` and `finishTime` (the
current time, here the parameter `now`). -/
def shipUpdate (sh : Ship) (i : Input) (o : MathOracle) (tl : ℚ) (dt : ℚ) (race : Bool)
    (now : ℚ) : Ship :=
  let out := updatePhysics sh.state i o tl dt race
  match out.2 with
  | Option.none => { sh with state := out.1 }
  | some ev =>
    if sh.finished then { sh with state := out.1 }
    else
      match ev with
      | .start => { sh with state := out.1, lap := 1 }
      | .increment =>
        let lap := sh.lap + 1
        if 5 < lap then
          { sh with state := out.1, lap := lap, finished := true, finishTime := now }
        else
          { sh with state := out.1, lap := lap }

/-- The ranking comparator passed to `allShips.sort` in the race loop:
finished pairs compare by finish time, a finished craft sorts before an
unfinished one, and unfinished pairs compare by descending total
progress.  The rational result stands for the JavaScript comparator
number whose sign drives the sort. -/
def shipCompare (a b : Ship) : ℚ :=
  if a.finished && b.finished then a.finishTime - b.finishTime
  else if a.finished then -1
  else if b.finished then 1
  else b.getTotalProgress - a.getTotalProgress

/-- The at-most relation induced by `shipCompare`: a sorts no later than
b exactly when the comparator is nonpositive. -/
def shipLE (a b : Ship) : Bool :=
  decide (shipCompare a b ≤ 0)

/-- The per-tick ranking pass: sort all crafts with the comparator (the
sort is a stable merge sort, as JavaScript engines implement
`Array.sort`). -/
def rankShips (ships : List Ship) : List Ship :=
  ships.mergeSort shipLE

/-- The ordering the specification describes for the ranking: finished
crafts by ascending finish time, every finished craft before every
unfinished one, unfinished crafts by descending total progress. -/
def rankedBefore (a b : Ship) : Prop :=
  (a.finished = true ∧ b.finished = true ∧ a.finishTime ≤ b.finishTime) ∨
  (a.finished = true ∧ b.finished = false) ∨
  (a.finished = false ∧ b.finished = false ∧ b.getTotalProgress ≤ a.getTotalProgress)

/-- Craft A of the ranking scenario: finished at time 100 s. -/
def craftA : Ship :=
  { state := INITIAL_GAME_STATE, lap := 6, finished := true, finishTime := 100 }

/-- Craft B of the ranking scenario: finished at time 90 s. -/
def craftB : Ship :=
  { state := INITIAL_GAME_STATE, lap := 6, finished := true, finishTime := 90 }

/-- Craft C of the ranking scenario: unfinished with total progress 3.4
(lap 3, track progress 0.4). -/
def craftC : Ship :=
  { state := { INITIAL_GAME_STATE with trackProgress := 4/10 }, lap := 3, finished := false,
    finishTime := 0 }

/-- The drag block of `updatePhysics` (its lines 147-150) over the
reals, with `Math.pow` realized by the real power function: the
longitudinal velocity is multiplied by `friction ^ dt` and the lateral
velocity by `slideFactor ^ dt`.  The pair carries the velocity as
(lateral, longitudinal), like the source's `velocity` vector. -/
noncomputable def dragStep (friction slideFactor dt : ℝ) (v : ℝ × ℝ) : ℝ × ℝ :=
  (v.1 * slideFactor ^ dt, v.2 * friction ^ dt)

/-- Three-component real vector, the embedding of `THREE.Vector3`. -/
@[ext]
structure Vec3 where
  x : ℝ
  y : ℝ
  z : ℝ

instance : Zero Vec3 := ⟨⟨0, 0, 0⟩⟩

instance : Add Vec3 := ⟨fun a b => ⟨a.x + b.x, a.y + b.y, a.z + b.z⟩⟩

/-- Scalar multiple of a vector (`THREE.Vector3.multiplyScalar`). -/
def Vec3.smul (c : ℝ) (v : Vec3) : Vec3 := ⟨c * v.x, c * v.y, c * v.z⟩

/-- Dot product (`THREE.Vector3.dot`). -/
def Vec3.dot (a b : Vec3) : ℝ := a.x * b.x + a.y * b.y + a.z * b.z

/-- Cross product (`THREE.Vector3.crossVectors`). -/
def Vec3.cross (a b : Vec3) : Vec3 :=
  ⟨a.y * b.z - a.z * b.y, a.z * b.x - a.x * b.z, a.x * b.y - a.y * b.x⟩

/-- Squared Euclidean length (`THREE.Vector3.lengthSq`). -/
def Vec3.lengthSq (v : Vec3) : ℝ := v.x * v.x + v.y * v.y + v.z * v.z

/-- Euclidean length (`THREE.Vector3.length`). -/
noncomputable def Vec3.length (v : Vec3) : ℝ := Real.sqrt v.lengthSq

/-- Normalization (`THREE.Vector3.normalize`, which divides by
`length() || 1`, so degenerate zero vectors pass through unchanged). -/
noncomputable def Vec3.normalize (v : Vec3) : Vec3 :=
  if v.length = 0 then v else Vec3.smul (1 / v.length) v

/-- Quaternion, the embedding of `THREE.Quaternion`. -/
structure Quat where
  x : ℝ
  y : ℝ
  z : ℝ
  w : ℝ

/-- `THREE.Quaternion.setFromAxisAngle` (the axis is assumed normalized
by its caller). -/
noncomputable def setFromAxisAngle (axis : Vec3) (angle : ℝ) : Quat :=
  let s := Real.sin (angle / 2)
  ⟨axis.x * s, axis.y * s, axis.z * s, Real.cos (angle / 2)⟩

/-- `THREE.Vector3.applyQuaternion`: the quaternion sandwich in the
two-cross-product form used by three.js. -/
def Vec3.applyQuaternion (v : Vec3) (q : Quat) : Vec3 :=
  let qv : Vec3 := ⟨q.x, q.y, q.z⟩
  let t := Vec3.smul 2 (Vec3.cross qv v)
  v + Vec3.smul q.w t + Vec3.cross qv t

/-- `THREE.Vector3.applyAxisAngle`: rotate about an axis via the
axis-angle quaternion. -/
noncomputable def Vec3.applyAxisAngle (v : Vec3) (axis : Vec3) (angle : ℝ) : Vec3 :=
  v.applyQuaternion (setFromAxisAngle axis angle)

/-- A sampled 3D curve: the `getPoint`/`getTangent` interface of
`THREE.Curve` that `getTrackFrame` consumes. -/
structure Curve3 where
  getPoint : ℝ → Vec3
  getTangent : ℝ → Vec3

/-- JavaScript `Math.sign` on reals. -/
noncomputable def jsSignR (x : ℝ) : ℝ := if 0 < x then 1 else if x < 0 then -1 else 0

/-- Truncation toward zero, the integer part the JavaScript remainder
operator is defined from. -/
noncomputable def jsTrunc (x : ℝ) : ℤ := if 0 ≤ x then ⌊x⌋ else ⌈x⌉

/-- The JavaScript remainder operator `%` on reals (the result takes the
sign of the dividend). -/
noncomputable def jsMod (a b : ℝ) : ℝ := a - b * (jsTrunc (a / b) : ℝ)

/-- One curvature sample of `getTrackFrame`: the cross product of the
normalized tangents at offset `i` steps from `t` and at the next step,
with all parameters wrapped into the unit interval by `(x + 1) % 1`. -/
noncomputable def sampleCross (c : Curve3) (t : ℝ) (i : ℤ) : Vec3 :=
  let sampleT := jsMod (t + (i : ℝ) * 0.04 + 1) 1
  let nextT := jsMod (sampleT + 0.04 + 1) 1
  Vec3.cross (Vec3.normalize (c.getTangent sampleT)) (Vec3.normalize (c.getTangent nextT))

/-- The smoothed curvature vector of `getTrackFrame`: the seven samples
combined with the bell-shaped weights 0.05/0.1/0.2/0.3/0.2/0.1/0.05. -/
noncomputable def curvatureVector (c : Curve3) (t : ℝ) : Vec3 :=
  Vec3.smul 0.05 (sampleCross c t (-3)) + Vec3.smul 0.1 (sampleCross c t (-2)) +
    Vec3.smul 0.2 (sampleCross c t (-1)) + Vec3.smul 0.3 (sampleCross c t 0) +
    Vec3.smul 0.2 (sampleCross c t 1) + Vec3.smul 0.1 (sampleCross c t 2) +
    Vec3.smul 0.05 (sampleCross c t 3)

/-- The banking angle of `getTrackFrame`: banking factor 4 on the
vertical curvature component, a Hermite-smoothstep deadzone below
0.1 + 0.15, and a clamp to plus or minus pi / 3. -/
noncomputable def bankAngleAt (c : Curve3) (t : ℝ) : ℝ :=
  let bankAngle := -(curvatureVector c t).y * 4.0
  let absBankAngle := |bankAngle|
  let bankAngle :=
    if absBankAngle < 0.1 + 0.15 then
      let s := max 0 ((absBankAngle - 0.1) / 0.15)
      let smoothT := s * s * (3 - 2 * s)
      jsSignR bankAngle * absBankAngle * smoothT
    else bankAngle
  max (-(Real.pi / 3)) (min (Real.pi / 3) bankAngle)

/-- The world up vector used by `getTrackFrame`. -/
def worldUp : Vec3 := ⟨0, 1, 0⟩

/-- The local frame returned by `getTrackFrame` (the renderer-only
rotation matrix assembled from the same three basis vectors is
omitted). -/
structure TrackFrame where
  position : Vec3
  tangent : Vec3
  normal : Vec3
  binormal : Vec3

/-- The `getTrackFrame` generator of `TrackFactory.ts`: normalize the
curve tangent; build the flat binormal as the normalized cross product
with world up, falling back to the world x axis when degenerate; rotate
it about the tangent by the banking angle; and derive the normal as the
normalized cross product of binormal and tangent. -/
noncomputable def getTrackFrame (c : Curve3) (t : ℝ) : TrackFrame :=
  let point := c.getPoint t
  let tangent := Vec3.normalize (c.getTangent t)
  let bankAngle := bankAngleAt c t
  let binormal := Vec3.normalize (Vec3.cross tangent worldUp)
  let binormal := if binormal.length < 0.01 then (⟨1, 0, 0⟩ : Vec3) else binormal
  let binormal := binormal.applyAxisAngle tangent bankAngle
  let normal := Vec3.normalize (Vec3.cross binormal tangent)
  ⟨point, tangent, normal, binormal⟩

/-- The parameterization modes of `THREE.CatmullRomCurve3`. -/
inductive CurveType where
  | centripetal
  | chordal
  | catmullrom

/-- The data a `THREE.CatmullRomCurve3` is constructed from: the control
points, the closed flag, and the parameterization type (the constructor
merely stores these; it validates nothing and cannot fail). -/
structure CatmullRomCurve3 where
  points : List Vec3
  closed : Bool
  curveType : CurveType

/-- The `createTrackCurve` track loader of `TrackFactory.ts`: construct
a closed centripetal Catmull-Rom curve over the given control points.
The source body is a single constructor call with no validation of any
kind. -/
def createTrackCurve (points : List Vec3) : CatmullRomCurve3 :=
  ⟨points, true, CurveType.centripetal⟩

/-- Modelled from the spec: the degenerate-track precondition of the
error taxonomy — a control-point list with fewer than 4 points, or a
zero-length loop (all control points coincident) — which the spec says
must be rejected at track-load time.  No corresponding check exists
anywhere in the source; `createTrackCurve` is the entire load path. -/
def specDegenerateTrack (points : List Vec3) : Prop :=
  points.length < 4 ∨ ∀ p ∈ points, ∀ q ∈ points, p = q

/-- The raw (pre-wraparound) track progress one tick produces: the
progress at the start of the tick plus the progress change the updated
longitudinal velocity yields.  This is the value `updatePhysics` tests
against 1.0 for the lap logic. -/
def preWrapProgress (s : GameState) (i : Input) (o : MathOracle) (tl dt : ℚ)
    (race : Bool) : ℚ :=
  let pre := applyBoostPads BOOST_PADS (preMoveState s i o dt race)
  pre.trackProgress + pre.vy * dt / tl

/-- Claim C6 (counterexample): a state with `boostTimer = 0.01` and one
tick at `dt = 1` ends with a strictly negative boost timer, because the
decrement `dt / 60` is applied without clamping at zero.  At this input
(yaw 0, throttle 0, exponent 1) the reference oracle agrees with the
real `Math` functions, so this is the genuine run of the source. -/
def cexBoostState : GameState :=
  { INITIAL_GAME_STATE with trackProgress := 0, boostTimer := 1/100 }

/-- Witness state for claim C8: a craft exactly on the first boost pad,
with a positive boost timer already running. -/
def padWitnessState : GameState :=
  { INITIAL_GAME_STATE with trackProgress := 15/100, boostTimer := 3 }

/-- The wraparound-aware distance between two track parameters of the
unit loop — the distance the specification would need the pad test to use
for pads straddling the 0/1 seam.  The source tests the plain linear
difference instead. -/
def circularDist (a b : ℚ) : ℚ := min |a - b| (1 - |a - b|)

/-- Witness pad for claim C10: a pad just past the 0/1 seam from the
witness craft (craft at progress 0.999, pad at 0.005, pad length 0.02:
circular distance 0.006 is inside the half-length 0.01, the linear
difference 0.994 is not). -/
def seamPad : BoostPad := ⟨5/1000, 0, 40, 2/100⟩

/-- Witness state for claim C10. -/
def seamState : GameState := { INITIAL_GAME_STATE with trackProgress := 999/1000 }

/-- Claim C1 (counterexample): a craft at progress 0.5 with longitudinal
velocity 3 on a track of length 1 overflows by more than a full lap in
one tick; `updatePhysics` subtracts only 1.0, leaving `trackProgress` at
2.47, outside `[0, 1)` — refuting the claim's parenthetical that the
post-wrap progress always lands back in `[0, 1)`.  At this input (yaw 0,
throttle 0, dt 1) the reference oracle agrees with the real `Math`
functions. -/
def overshootState : GameState :=
  { INITIAL_GAME_STATE with trackProgress := 1/2, vy := 3 }

/-- Witness state for claim C1: a craft just short of the line with a
gentle forward velocity (raw progress 1.098), crossing for the first
time. -/
def crossingState : GameState :=
  { INITIAL_GAME_STATE with trackProgress := 999/1000, vy := 1 }


/-- The degenerate control-point list of the claim-C9 counterexample:
two coincident points — fewer than 4 points and a zero-length loop. -/
def degeneratePoints : List Vec3 := [⟨0, 0, 0⟩, ⟨0, 0, 0⟩]

/-- A constant straight-line curve used as the witness input of claim
C7: every tangent sample is the unit forward vector (0, 0, -1). -/
def constCurve : Curve3 := ⟨fun _ => ⟨0, 0, 0⟩, fun _ => ⟨0, 0, -1⟩⟩


theorem jsAbs_eq_abs (x : ℚ) : jsAbs x = |x| := by
  unfold jsAbs
  by_cases h : x < 0
  · simp [h, abs_of_neg h]
  · simp [h, abs_of_nonneg (not_lt.mp h)]

theorem abs_jsSign_le_one (x : ℚ) : |jsSign x| ≤ 1 := by
  unfold jsSign
  by_cases h1 : 0 < x
  · simp [h1]
  · by_cases h2 : x < 0 <;> simp [h1, h2]

theorem softWall_lat (s : GameState) : (softWall s).lateralPosition = s.lateralPosition := by
  simp only [softWall]
  split <;> rfl

theorem groundFloor_lat (s : GameState) : (groundFloor s).lateralPosition = s.lateralPosition := by
  simp only [groundFloor]
  split <;> rfl

theorem groundFloor_vx (s : GameState) : (groundFloor s).vx = s.vx := by
  simp only [groundFloor]
  split <;> rfl

theorem hardClamp_lat_le (s : GameState) : |(hardClamp s).lateralPosition| ≤ 60 := by
  unfold hardClamp
  by_cases h : (60:ℚ) < jsAbs s.lateralPosition
  · simp only [h, if_true]
    calc |jsSign s.lateralPosition * (60 - 1/10)|
        = |jsSign s.lateralPosition| * |((60:ℚ) - 1/10)| := abs_mul _ _
      _ ≤ 1 * |((60:ℚ) - 1/10)| := by
          apply mul_le_mul_of_nonneg_right (abs_jsSign_le_one _) (abs_nonneg _)
      _ = 599/10 := by
          rw [one_mul, abs_of_nonneg (by norm_num : (0:ℚ) ≤ 60 - 1/10)]
          norm_num
      _ ≤ 60 := by norm_num
  · simp only [h, if_false]
    rw [jsAbs_eq_abs] at h
    exact not_lt.mp h

theorem checkCollision_lat_le (s : GameState) : |(checkCollision s).lateralPosition| ≤ 60 := by
  unfold checkCollision
  rw [groundFloor_lat]
  exact hardClamp_lat_le _

theorem stepVisual_lat (dt : ℚ) (s : GameState) :
    (stepVisual dt s).lateralPosition = s.lateralPosition := rfl

theorem updatePhysicsWith_fst (pads : List BoostPad) (s : GameState) (i : Input)
    (o : MathOracle) (tl dt : ℚ) (race : Bool) :
    (updatePhysicsWith pads s i o tl dt race).1 =
      stepVisual dt (checkCollision (stepVertical dt (stepLateral dt
        (stepProgress tl dt (applyBoostPads pads (preMoveState s i o dt race))).1))) := rfl

theorem updatePhysicsWith_lat_le (pads : List BoostPad) (s : GameState) (i : Input)
    (o : MathOracle) (tl dt : ℚ) (race : Bool) :
    |(updatePhysicsWith pads s i o tl dt race).1.lateralPosition| ≤ 60 := by
  rw [updatePhysicsWith_fst, stepVisual_lat]
  exact checkCollision_lat_le _

/-- Claim C3: after every tick's collision resolution the lateral
position never exceeds the visual wall limit of 60 units; whenever its
magnitude exceeds 60 it is clamped to sign times 59.9 and the lateral
velocity (as produced by the soft-wall stage) is reversed at factor
-0.2; consequently every nonempty sequence of physics ticks (whatever
the inputs, in particular with strafe held to one side) ends with the
lateral position within the wall. -/
theorem c3_wall_containment :
    (∀ s : GameState, |(checkCollision s).lateralPosition| ≤ 60) ∧
    (∀ s : GameState, 60 < |s.lateralPosition| →
      (checkCollision s).lateralPosition = jsSign s.lateralPosition * (60 - 1/10) ∧
      (checkCollision s).vx = (softWall s).vx * (-(2/10))) ∧
    (∀ (pads : List BoostPad) (s : GameState) (i : Input) (o : MathOracle) (tl dt : ℚ)
      (race : Bool), |(updatePhysicsWith pads s i o tl dt race).1.lateralPosition| ≤ 60) ∧
    (∀ (s : GameState) (o : MathOracle) (tl : ℚ) (race : Bool) (ticks : List (Input × ℚ)),
      ticks ≠ [] →
      |(ticks.foldl (fun st p => (updatePhysics st p.1 o tl p.2 race).1) s).lateralPosition|
        ≤ 60) := by
  refine ⟨checkCollision_lat_le, ?_, updatePhysicsWith_lat_le, ?_⟩
  · intro s h
    have hj : (60:ℚ) < jsAbs (softWall s).lateralPosition := by
      rw [softWall_lat, jsAbs_eq_abs]; exact h
    unfold checkCollision
    rw [groundFloor_lat, groundFloor_vx]
    unfold hardClamp
    rw [if_pos hj, softWall_lat]
    exact ⟨rfl, rfl⟩
  · intro s o tl race ticks hne
    induction ticks generalizing s with
    | nil => exact absurd rfl hne
    | cons t rest ih =>
      rcases eq_or_ne rest ([] : List (Input × ℚ)) with hrest | hrest
      · subst hrest
        simpa using updatePhysicsWith_lat_le BOOST_PADS s t.1 o tl t.2 race
      · simpa using ih ((updatePhysics s t.1 o tl t.2 race).1) hrest


theorem stepThrottle_keeps (i : Input) (dt : ℚ) (race : Bool) (s : GameState) :
    (stepThrottle i dt race s).trackProgress = s.trackProgress ∧
    (stepThrottle i dt race s).lateralPosition = s.lateralPosition ∧
    (stepThrottle i dt race s).boostTimer = s.boostTimer ∧
    (stepThrottle i dt race s).hasCrossedStartLine = s.hasCrossedStartLine := by
  simp only [stepThrottle]
  split <;> exact ⟨rfl, rfl, rfl, rfl⟩

theorem stepYaw_keeps (i : Input) (o : MathOracle) (dt : ℚ) (s : GameState) :
    (stepYaw i o dt s).trackProgress = s.trackProgress ∧
    (stepYaw i o dt s).lateralPosition = s.lateralPosition ∧
    (stepYaw i o dt s).boostTimer = s.boostTimer ∧
    (stepYaw i o dt s).hasCrossedStartLine = s.hasCrossedStartLine := by
  simp only [stepYaw]
  split <;> [skip; split] <;> exact ⟨rfl, rfl, rfl, rfl⟩

theorem stepThrust_keeps (o : MathOracle) (dt : ℚ) (s : GameState) :
    (stepThrust o dt s).trackProgress = s.trackProgress ∧
    (stepThrust o dt s).lateralPosition = s.lateralPosition ∧
    (stepThrust o dt s).hasCrossedStartLine = s.hasCrossedStartLine := ⟨rfl, rfl, rfl⟩

theorem stepThrust_boost (o : MathOracle) (dt : ℚ) (s : GameState) :
    (stepThrust o dt s).boostTimer =
      if 0 < s.boostTimer then s.boostTimer - dt / 60 else s.boostTimer := rfl

theorem stepStrafe_keeps (i : Input) (dt : ℚ) (s : GameState) :
    (stepStrafe i dt s).trackProgress = s.trackProgress ∧
    (stepStrafe i dt s).lateralPosition = s.lateralPosition ∧
    (stepStrafe i dt s).boostTimer = s.boostTimer ∧
    (stepStrafe i dt s).hasCrossedStartLine = s.hasCrossedStartLine := by
  simp only [stepStrafe]
  split <;> split <;> exact ⟨rfl, rfl, rfl, rfl⟩

theorem stepDrag_keeps (o : MathOracle) (dt : ℚ) (s : GameState) :
    (stepDrag o dt s).trackProgress = s.trackProgress ∧
    (stepDrag o dt s).lateralPosition = s.lateralPosition ∧
    (stepDrag o dt s).boostTimer = s.boostTimer ∧
    (stepDrag o dt s).hasCrossedStartLine = s.hasCrossedStartLine := ⟨rfl, rfl, rfl, rfl⟩

theorem stepJump_keeps (i : Input) (dt : ℚ) (s : GameState) :
    (stepJump i dt s).trackProgress = s.trackProgress ∧
    (stepJump i dt s).lateralPosition = s.lateralPosition ∧
    (stepJump i dt s).boostTimer = s.boostTimer ∧
    (stepJump i dt s).hasCrossedStartLine = s.hasCrossedStartLine := by
  simp only [stepJump]
  split <;> [split <;> [split <;> skip; skip]; skip] <;> exact ⟨rfl, rfl, rfl, rfl⟩

theorem preMoveState_keeps (s : GameState) (i : Input) (o : MathOracle) (dt : ℚ)
    (race : Bool) :
    (preMoveState s i o dt race).trackProgress = s.trackProgress ∧
    (preMoveState s i o dt race).lateralPosition = s.lateralPosition ∧
    (preMoveState s i o dt race).hasCrossedStartLine = s.hasCrossedStartLine := by
  unfold preMoveState
  obtain ⟨a1, a2, a3, a4⟩ := stepThrottle_keeps i dt race s
  obtain ⟨b1, b2, b3, b4⟩ := stepYaw_keeps i o dt (stepThrottle i dt race s)
  obtain ⟨c1, c2, c3⟩ := stepThrust_keeps o dt (stepYaw i o dt (stepThrottle i dt race s))
  obtain ⟨d1, d2, d3, d4⟩ := stepStrafe_keeps i dt _
  obtain ⟨e1, e2, e3, e4⟩ := stepDrag_keeps o dt _
  obtain ⟨f1, f2, f3, f4⟩ := stepJump_keeps i dt _
  refine ⟨?_, ?_, ?_⟩
  · rw [f1, e1, d1, c1, b1, a1]
  · rw [f2, e2, d2, c2, b2, a2]
  · rw [f4, e4, d4, c3, b4, a4]

theorem preMoveState_boost_pos (s : GameState) (i : Input) (o : MathOracle) (dt : ℚ)
    (race : Bool) (h : 0 ≤ s.boostTimer) (hdt : 0 < dt) :
    -(dt / 60) < (preMoveState s i o dt race).boostTimer := by
  unfold preMoveState
  obtain ⟨a1, a2, a3, a4⟩ := stepThrottle_keeps i dt race s
  obtain ⟨b1, b2, b3, b4⟩ := stepYaw_keeps i o dt (stepThrottle i dt race s)
  obtain ⟨d1, d2, d3, d4⟩ := stepStrafe_keeps i dt _
  obtain ⟨e1, e2, e3, e4⟩ := stepDrag_keeps o dt _
  obtain ⟨f1, f2, f3, f4⟩ := stepJump_keeps i dt _
  rw [f3, e3, d3, stepThrust_boost, b3, a3]
  split
  · linarith
  · linarith

theorem applyBoostPads_keeps (pads : List BoostPad) (s : GameState) :
    (applyBoostPads pads s).trackProgress = s.trackProgress ∧
    (applyBoostPads pads s).lateralPosition = s.lateralPosition ∧
    (applyBoostPads pads s).vy = s.vy ∧
    (applyBoostPads pads s).hasCrossedStartLine = s.hasCrossedStartLine := by
  induction pads generalizing s with
  | nil => exact ⟨rfl, rfl, rfl, rfl⟩
  | cons p rest ih =>
    simp only [applyBoostPads, List.foldl_cons] at ih ⊢
    by_cases h : padHit p s
    · obtain ⟨i1, i2, i3, i4⟩ := ih { s with boostTimer := 5 }
      rw [if_pos h]
      exact ⟨i1, i2, i3, i4⟩
    · rw [if_neg h]
      exact ih s

theorem applyBoostPads_boost (pads : List BoostPad) (s : GameState) :
    (applyBoostPads pads s).boostTimer = 5 ∨
    (applyBoostPads pads s).boostTimer = s.boostTimer := by
  induction pads generalizing s with
  | nil => exact Or.inr rfl
  | cons p rest ih =>
    simp only [applyBoostPads, List.foldl_cons] at ih ⊢
    by_cases h : padHit p s
    · rw [if_pos h]
      rcases ih { s with boostTimer := 5 } with h5 | hkeep
      · exact Or.inl h5
      · exact Or.inl hkeep
    · rw [if_neg h]
      exact ih s

theorem applyBoostPads_hit (pads : List BoostPad) (s : GameState)
    (h : ∃ p ∈ pads, padHit p s) : (applyBoostPads pads s).boostTimer = 5 := by
  induction pads generalizing s with
  | nil => simp at h
  | cons p rest ih =>
    simp only [applyBoostPads, List.foldl_cons] at ih ⊢
    by_cases hp : padHit p s
    · rw [if_pos hp]
      rcases applyBoostPads_boost rest { s with boostTimer := 5 } with h5 | hkeep
      · simpa only [applyBoostPads] using h5
      · simpa only [applyBoostPads] using hkeep
    · rw [if_neg hp]
      rcases h with ⟨q, hq, hhit⟩
      rcases List.mem_cons.mp hq with rfl | hq'
      · exact absurd hhit hp
      · exact ih s ⟨q, hq', hhit⟩

theorem applyBoostPads_miss (pads : List BoostPad) (s : GameState)
    (h : ∀ p ∈ pads, ¬ padHit p s) : applyBoostPads pads s = s := by
  induction pads with
  | nil => rfl
  | cons p rest ih =>
    simp only [applyBoostPads, List.foldl_cons] at ih ⊢
    rw [if_neg (h p (List.mem_cons_self p rest))]
    exact ih fun q hq => h q (List.mem_cons_of_mem p hq)

theorem stepProgress_keeps (tl dt : ℚ) (s : GameState) :
    (stepProgress tl dt s).1.boostTimer = s.boostTimer ∧
    (stepProgress tl dt s).1.lateralPosition = s.lateralPosition := by
  simp only [stepProgress]
  split <;> [split; split] <;> exact ⟨rfl, rfl⟩

theorem stepLateral_keeps (dt : ℚ) (s : GameState) :
    (stepLateral dt s).trackProgress = s.trackProgress ∧
    (stepLateral dt s).boostTimer = s.boostTimer := ⟨rfl, rfl⟩

theorem stepVertical_keeps (dt : ℚ) (s : GameState) :
    (stepVertical dt s).trackProgress = s.trackProgress ∧
    (stepVertical dt s).lateralPosition = s.lateralPosition ∧
    (stepVertical dt s).boostTimer = s.boostTimer := ⟨rfl, rfl, rfl⟩

theorem softWall_keeps (s : GameState) :
    (softWall s).trackProgress = s.trackProgress ∧ (softWall s).boostTimer = s.boostTimer := by
  simp only [softWall]
  split <;> exact ⟨rfl, rfl⟩

theorem hardClamp_keeps (s : GameState) :
    (hardClamp s).trackProgress = s.trackProgress ∧
    (hardClamp s).boostTimer = s.boostTimer := by
  simp only [hardClamp]
  split <;> exact ⟨rfl, rfl⟩

theorem groundFloor_keeps (s : GameState) :
    (groundFloor s).trackProgress = s.trackProgress ∧
    (groundFloor s).boostTimer = s.boostTimer := by
  simp only [groundFloor]
  split <;> exact ⟨rfl, rfl⟩

theorem checkCollision_keeps (s : GameState) :
    (checkCollision s).trackProgress = s.trackProgress ∧
    (checkCollision s).boostTimer = s.boostTimer := by
  unfold checkCollision
  rw [(groundFloor_keeps _).1, (groundFloor_keeps _).2, (hardClamp_keeps _).1,
    (hardClamp_keeps _).2, (softWall_keeps _).1, (softWall_keeps _).2]
  exact ⟨rfl, rfl⟩

theorem stepVisual_keeps (dt : ℚ) (s : GameState) :
    (stepVisual dt s).trackProgress = s.trackProgress ∧
    (stepVisual dt s).boostTimer = s.boostTimer := ⟨rfl, rfl⟩

theorem updatePhysicsWith_boost (pads : List BoostPad) (s : GameState) (i : Input)
    (o : MathOracle) (tl dt : ℚ) (race : Bool) :
    (updatePhysicsWith pads s i o tl dt race).1.boostTimer =
      (applyBoostPads pads (preMoveState s i o dt race)).boostTimer := by
  rw [updatePhysicsWith_fst]
  rw [(stepVisual_keeps dt _).2, (checkCollision_keeps _).2, (stepVertical_keeps dt _).2.2,
    (stepLateral_keeps dt _).2, (stepProgress_keeps tl dt _).1]


theorem preMoveState_boost_zero (s : GameState) (i : Input) (o : MathOracle) (dt : ℚ)
    (race : Bool) (h : s.boostTimer = 0) : (preMoveState s i o dt race).boostTimer = 0 := by
  unfold preMoveState
  obtain ⟨a1, a2, a3, a4⟩ := stepThrottle_keeps i dt race s
  obtain ⟨b1, b2, b3, b4⟩ := stepYaw_keeps i o dt (stepThrottle i dt race s)
  obtain ⟨d1, d2, d3, d4⟩ := stepStrafe_keeps i dt _
  obtain ⟨e1, e2, e3, e4⟩ := stepDrag_keeps o dt _
  obtain ⟨f1, f2, f3, f4⟩ := stepJump_keeps i dt _
  rw [f3, e3, d3, stepThrust_boost, b3, a3, h]
  norm_num

theorem updatePhysicsWith_snd (pads : List BoostPad) (s : GameState) (i : Input)
    (o : MathOracle) (tl dt : ℚ) (race : Bool) :
    (updatePhysicsWith pads s i o tl dt race).2 =
      (stepProgress tl dt (applyBoostPads pads (preMoveState s i o dt race))).2 := rfl

theorem updatePhysicsWith_tp (pads : List BoostPad) (s : GameState) (i : Input)
    (o : MathOracle) (tl dt : ℚ) (race : Bool) :
    (updatePhysicsWith pads s i o tl dt race).1.trackProgress =
      (stepProgress tl dt (applyBoostPads pads (preMoveState s i o dt race))).1.trackProgress := by
  rw [updatePhysicsWith_fst, (stepVisual_keeps dt _).1, (checkCollision_keeps _).1,
    (stepVertical_keeps dt _).1, (stepLateral_keeps dt _).1]

theorem c6_boost_cex :
    0 ≤ cexBoostState.boostTimer ∧ (0:ℚ) < 1 ∧
    (updatePhysics cexBoostState Input.none refOracle 100 1 true).1.boostTimer < 0 := by
  refine ⟨by norm_num [cexBoostState, INITIAL_GAME_STATE], by norm_num, ?_⟩
  norm_num [updatePhysics, updatePhysicsWith, preMoveState, stepThrottle, stepYaw, stepThrust,
    stepStrafe, stepDrag, stepJump, applyBoostPads, padHit, stepProgress, stepLateral,
    stepVertical, checkCollision, softWall, hardClamp, groundFloor, stepVisual, refOracle,
    BOOST_PADS, INITIAL_GAME_STATE, jsSign, jsAbs, cexBoostState, Input.none, PLAYER_START_T]

/-- Claim C6 (amended): the boost timer can dip below zero, but never by
a full tick's decrement: from `boostTimer ≥ 0` and `dt > 0`, one physics
tick leaves `boostTimer > -(dt / 60)` (the source checks `boostTimer > 0`
before subtracting `dt / 60` and never clamps the result at zero). -/
theorem c6_boost_timer_lower_bound (s : GameState) (i : Input) (o : MathOracle) (tl dt : ℚ)
    (race : Bool) (h : 0 ≤ s.boostTimer) (hdt : 0 < dt) :
    -(dt / 60) < (updatePhysics s i o tl dt race).1.boostTimer := by
  rw [updatePhysics, updatePhysicsWith_boost]
  rcases applyBoostPads_boost BOOST_PADS (preMoveState s i o dt race) with h5 | hkeep
  · rw [h5]; linarith
  · rw [hkeep]; exact preMoveState_boost_pos s i o dt race h hdt

theorem c6_boost_timer_lower_bound_witness :
    0 ≤ INITIAL_GAME_STATE.boostTimer ∧ (0:ℚ) < 1 ∧
    -((1:ℚ) / 60) < (updatePhysics INITIAL_GAME_STATE Input.none refOracle 100 1 true).1.boostTimer :=
  ⟨by norm_num [INITIAL_GAME_STATE], by norm_num,
    c6_boost_timer_lower_bound INITIAL_GAME_STATE Input.none refOracle 100 1 true
      (by norm_num [INITIAL_GAME_STATE]) (by norm_num)⟩

/-- Claim C8: the boost pickup sets the timer to exactly 5.0 and never
stacks: whenever some pad of the scanned list is hit (the track progress
within half the pad length of the pad and the lateral position within
half its width), the tick ends with `boostTimer = 5` exactly — whatever
the timer held before (re-entry while positive re-arms to 5), and no
matter how many pads overlap at once. -/
theorem c8_boost_idempotent (pads : List BoostPad) (s : GameState) (i : Input)
    (o : MathOracle) (tl dt : ℚ) (race : Bool) (h : ∃ p ∈ pads, padHit p s) :
    (updatePhysicsWith pads s i o tl dt race).1.boostTimer = 5 := by
  rw [updatePhysicsWith_boost]
  apply applyBoostPads_hit
  obtain ⟨p, hp, hhit⟩ := h
  refine ⟨p, hp, ?_⟩
  have keeps := preMoveState_keeps s i o dt race
  unfold padHit at hhit ⊢
  rw [keeps.1, keeps.2.1]
  exact hhit

theorem c8_boost_idempotent_witness :
    (∃ p ∈ BOOST_PADS, padHit p padWitnessState) ∧
    (updatePhysicsWith BOOST_PADS padWitnessState Input.none refOracle 100 1 true).1.boostTimer
      = 5 :=
  ⟨⟨⟨15/100, 0, 40, 2/100⟩, by norm_num [BOOST_PADS],
      by norm_num [padHit, jsAbs, padWitnessState, INITIAL_GAME_STATE]⟩,
    c8_boost_idempotent BOOST_PADS padWitnessState Input.none refOracle 100 1 true
      ⟨⟨15/100, 0, 40, 2/100⟩, by norm_num [BOOST_PADS],
        by norm_num [padHit, jsAbs, padWitnessState, INITIAL_GAME_STATE]⟩⟩

/-- Claim C10: the boost-pad proximity test uses the plain linear
difference with no modular wraparound: a pad whose circular distance to
the craft is inside the trigger range but whose linear difference is not
(a pad just past the 0/1 seam from the craft) does not trigger — the pad
scan leaves the state unchanged, and a tick started with no boost leaves
`boostTimer` at zero. -/
theorem c10_no_seam_wraparound (pad : BoostPad) (s : GameState) (i : Input) (o : MathOracle)
    (tl dt : ℚ) (race : Bool)
    (hcirc : circularDist s.trackProgress pad.trackProgress < pad.length / 2)
    (hlin : pad.length / 2 ≤ |s.trackProgress - pad.trackProgress|) :
    applyBoostPads [pad] s = s ∧
    (s.boostTimer = 0 → (updatePhysicsWith [pad] s i o tl dt race).1.boostTimer = 0) := by
  have hmiss : ¬ padHit pad s := by
    unfold padHit
    rw [jsAbs_eq_abs]
    intro hc
    exact absurd hc.1 (not_lt.mpr hlin)
  have hone : ∀ q ∈ [pad], ¬ padHit q s := by
    intro q hq
    rw [List.mem_singleton.mp hq]
    exact hmiss
  refine ⟨applyBoostPads_miss [pad] s hone, ?_⟩
  intro hb
  rw [updatePhysicsWith_boost]
  have keeps := preMoveState_keeps s i o dt race
  have hone' : ∀ q ∈ [pad], ¬ padHit q (preMoveState s i o dt race) := by
    intro q hq
    rw [List.mem_singleton.mp hq]
    unfold padHit
    rw [keeps.1, keeps.2.1]
    exact hmiss
  rw [applyBoostPads_miss [pad] _ hone']
  exact preMoveState_boost_zero s i o dt race hb

theorem c10_no_seam_wraparound_witness :
    circularDist seamState.trackProgress seamPad.trackProgress < seamPad.length / 2 ∧
    seamPad.length / 2 ≤ |seamState.trackProgress - seamPad.trackProgress| ∧
    (applyBoostPads [seamPad] seamState = seamState ∧
      (seamState.boostTimer = 0 →
        (updatePhysicsWith [seamPad] seamState Input.none refOracle 100 1 true).1.boostTimer
          = 0)) :=
  ⟨by norm_num [circularDist, seamState, seamPad, INITIAL_GAME_STATE, abs_of_nonneg],
   by norm_num [seamState, seamPad, INITIAL_GAME_STATE, abs_of_nonneg],
   c10_no_seam_wraparound seamPad seamState Input.none refOracle 100 1 true
     (by norm_num [circularDist, seamState, seamPad, INITIAL_GAME_STATE, abs_of_nonneg])
     (by norm_num [seamState, seamPad, INITIAL_GAME_STATE, abs_of_nonneg])⟩


theorem preWrapProgress_eq (s : GameState) (i : Input) (o : MathOracle) (tl dt : ℚ)
    (race : Bool) :
    preWrapProgress s i o tl dt race =
      (applyBoostPads BOOST_PADS (preMoveState s i o dt race)).trackProgress +
        (applyBoostPads BOOST_PADS (preMoveState s i o dt race)).vy * dt / tl := rfl

theorem c1_lap_wraparound_cex :
    (0 ≤ overshootState.trackProgress ∧ overshootState.trackProgress < 1) ∧
    1 ≤ preWrapProgress overshootState Input.none refOracle 1 1 true ∧
    ¬ ((updatePhysics overshootState Input.none refOracle 1 1 true).1.trackProgress < 1) := by
  refine ⟨by norm_num [overshootState, INITIAL_GAME_STATE], ?_, ?_⟩
  · norm_num [preWrapProgress, preMoveState, stepThrottle, stepYaw, stepThrust,
      stepStrafe, stepDrag, stepJump, applyBoostPads, padHit, refOracle,
      BOOST_PADS, INITIAL_GAME_STATE, jsSign, jsAbs, overshootState, Input.none, PLAYER_START_T]
  · norm_num [updatePhysics, updatePhysicsWith, preMoveState, stepThrottle, stepYaw, stepThrust,
      stepStrafe, stepDrag, stepJump, applyBoostPads, padHit, stepProgress, stepLateral,
      stepVertical, checkCollision, softWall, hardClamp, groundFloor, stepVisual, refOracle,
      BOOST_PADS, INITIAL_GAME_STATE, jsSign, jsAbs, overshootState, Input.none, PLAYER_START_T]

theorem stepProgress_overflow (tl dt : ℚ) (s : GameState)
    (h : 1 ≤ s.trackProgress + s.vy * dt / tl) :
    (stepProgress tl dt s).1.trackProgress = s.trackProgress + s.vy * dt / tl - 1 ∧
    (stepProgress tl dt s).2 =
      some (if s.hasCrossedStartLine then LapEvent.increment else LapEvent.start) := by
  simp only [stepProgress]
  rw [if_pos h]
  cases hc : s.hasCrossedStartLine <;> simp [hc]

theorem stepProgress_no_overflow (tl dt : ℚ) (s : GameState)
    (h : s.trackProgress + s.vy * dt / tl < 1) :
    (stepProgress tl dt s).2 = Option.none := by
  simp only [stepProgress]
  rw [if_neg (not_le.mpr h)]
  split <;> rfl

/-- Claim C1 (amended): for a state with `trackProgress` in `[0, 1)`,
whenever the tick's raw progress reaches 1.0 the update subtracts
exactly 1.0 and emits exactly one lap event — the signal 1 ("race
start") if the craft has never crossed the line, the INCREMENT signal on
every later crossing — and, provided the raw progress stays below 2.0,
the wrapped progress lands back in `[0, 1)`; a tick whose raw progress
stays below 1.0 emits no lap event. -/
theorem c1_lap_wraparound (s : GameState) (i : Input) (o : MathOracle) (tl dt : ℚ)
    (race : Bool) (h0 : 0 ≤ s.trackProgress) (h1 : s.trackProgress < 1) :
    (1 ≤ preWrapProgress s i o tl dt race →
      (updatePhysics s i o tl dt race).1.trackProgress =
        preWrapProgress s i o tl dt race - 1 ∧
      (updatePhysics s i o tl dt race).2 =
        some (if s.hasCrossedStartLine then LapEvent.increment else LapEvent.start) ∧
      (preWrapProgress s i o tl dt race < 2 →
        0 ≤ (updatePhysics s i o tl dt race).1.trackProgress ∧
        (updatePhysics s i o tl dt race).1.trackProgress < 1)) ∧
    (preWrapProgress s i o tl dt race < 1 →
      (updatePhysics s i o tl dt race).2 = Option.none) := by
  have hpad := applyBoostPads_keeps BOOST_PADS (preMoveState s i o dt race)
  have hpre := preMoveState_keeps s i o dt race
  have hcross : (applyBoostPads BOOST_PADS (preMoveState s i o dt race)).hasCrossedStartLine
      = s.hasCrossedStartLine := by rw [hpad.2.2.2, hpre.2.2]
  have hp := preWrapProgress_eq s i o tl dt race
  rw [updatePhysics, updatePhysicsWith_tp, updatePhysicsWith_snd]
  constructor
  · intro hge
    obtain ⟨e1, e2⟩ := stepProgress_overflow tl dt
      (applyBoostPads BOOST_PADS (preMoveState s i o dt race)) (by rw [← hp]; exact hge)
    refine ⟨?_, ?_, ?_⟩
    · rw [e1, hp]
    · rw [e2, hcross]
    · intro hlt
      rw [e1, ← hp]
      constructor <;> linarith
  · intro hlt
    exact stepProgress_no_overflow tl dt
      (applyBoostPads BOOST_PADS (preMoveState s i o dt race)) (by rw [← hp]; exact hlt)

theorem c1_lap_wraparound_witness :
    (0 ≤ crossingState.trackProgress ∧ crossingState.trackProgress < 1) ∧
    ((1 ≤ preWrapProgress crossingState Input.none refOracle 10 1 true →
      (updatePhysics crossingState Input.none refOracle 10 1 true).1.trackProgress =
        preWrapProgress crossingState Input.none refOracle 10 1 true - 1 ∧
      (updatePhysics crossingState Input.none refOracle 10 1 true).2 =
        some (if crossingState.hasCrossedStartLine then LapEvent.increment
          else LapEvent.start) ∧
      (preWrapProgress crossingState Input.none refOracle 10 1 true < 2 →
        0 ≤ (updatePhysics crossingState Input.none refOracle 10 1 true).1.trackProgress ∧
        (updatePhysics crossingState Input.none refOracle 10 1 true).1.trackProgress < 1)) ∧
    (preWrapProgress crossingState Input.none refOracle 10 1 true < 1 →
      (updatePhysics crossingState Input.none refOracle 10 1 true).2 = Option.none)) :=
  ⟨by norm_num [crossingState, INITIAL_GAME_STATE],
   c1_lap_wraparound crossingState Input.none refOracle 10 1 true
     (by norm_num [crossingState, INITIAL_GAME_STATE])
     (by norm_num [crossingState, INITIAL_GAME_STATE])⟩


theorem shipLE_iff (a b : Ship) : shipLE a b = true ↔ shipCompare a b ≤ 0 := by
  simp [shipLE]

theorem shipLE_trans (a b c : Ship) (hab : shipLE a b = true) (hbc : shipLE b c = true) :
    shipLE a c = true := by
  rw [shipLE_iff] at hab hbc ⊢
  unfold shipCompare at hab hbc ⊢
  rcases ha : a.finished <;> rcases hb : b.finished <;> rcases hc : c.finished <;>
    simp [ha, hb, hc] at hab hbc ⊢ <;> linarith

theorem shipLE_total (a b : Ship) : (shipLE a b || shipLE b a) = true := by
  by_cases h : shipCompare a b ≤ 0
  · have hab : shipLE a b = true := (shipLE_iff a b).mpr h
    rw [hab, Bool.true_or]
  · have hgt : 0 < shipCompare a b := not_le.mp h
    have hba : shipCompare b a ≤ 0 := by
      unfold shipCompare at hgt ⊢
      rcases ha : a.finished <;> rcases hb : b.finished <;> simp [ha, hb] at hgt ⊢ <;> linarith
    rw [(shipLE_iff b a).mpr hba, Bool.or_true]

theorem shipLE_imp_rankedBefore (a b : Ship) (h : shipLE a b = true) : rankedBefore a b := by
  rw [shipLE_iff] at h
  unfold shipCompare at h
  unfold rankedBefore
  rcases ha : a.finished <;> rcases hb : b.finished <;> simp [ha, hb] at h ⊢ <;> linarith

/-- Claim C2: the per-tick ranking is a permutation of the craft list in
which every finished craft precedes every unfinished one, finished
crafts appear in ascending finish time, unfinished crafts in descending
total progress; and on the scenario crafts (A finished at 100 s, B
finished at 90 s, C unfinished with total progress 3.4) the computed
order is [B, A, C]. -/
theorem c2_ranking_order :
    (∀ ships : List Ship, (rankShips ships).Perm ships) ∧
    (∀ ships : List Ship, (rankShips ships).Pairwise rankedBefore) ∧
    rankShips [craftA, craftB, craftC] = [craftB, craftA, craftC] := by
  refine ⟨fun ships => List.mergeSort_perm ships shipLE, fun ships => ?_, ?_⟩
  · exact (List.sorted_mergeSort shipLE_trans shipLE_total ships).imp
      (fun h => shipLE_imp_rankedBefore _ _ h)
  · norm_num [rankShips, List.mergeSort, List.merge, shipLE, shipCompare,
      Ship.getTotalProgress, craftA, craftB, craftC, INITIAL_GAME_STATE, PLAYER_START_T]

/-- Claim C4: the drag step is frame-rate independent — applying it once
with dt = 2 gives exactly the same velocity pair as applying it twice
with dt = 1, because drag multiplies by `friction ^ dt` and
`slideFactor ^ dt` and the power law gives `x ^ 1 * x ^ 1 = x ^ 2`. -/
theorem c4_drag_framerate_independent (friction slideFactor : ℝ) (v : ℝ × ℝ) :
    dragStep friction slideFactor 2 v =
      dragStep friction slideFactor 1 (dragStep friction slideFactor 1 v) := by
  unfold dragStep
  have h2 : ∀ x : ℝ, x ^ (2:ℝ) = x * x := by
    intro x
    rw [show (2:ℝ) = ((2:ℕ):ℝ) by norm_num, Real.rpow_natCast]
    ring
  simp only [Real.rpow_one, h2]
  exact Prod.ext (by ring) (by ring)

/-- Claim C5: the finished flag and the finish time are latched exactly
once, at the lap event on which the lap counter first exceeds 5: a tick
finishes the craft precisely when it is not yet finished, the tick emits
the INCREMENT signal, and the incremented lap exceeds 5 — at that
instant `finishTime` is set to the current time; any other tick leaves
`finishTime` untouched, and once `finished` holds, every later tick
leaves `finished`, `finishTime` and `lap` unchanged (lap events are
ignored after finishing). -/
theorem c5_finish_latched_once (sh : Ship) (i : Input) (o : MathOracle) (tl dt : ℚ)
    (race : Bool) (now : ℚ) :
    ((shipUpdate sh i o tl dt race now).finished = true ↔
      (sh.finished = true ∨
        ((updatePhysics sh.state i o tl dt race).2 = some LapEvent.increment ∧
          5 < sh.lap + 1))) ∧
    (sh.finished = true →
      (shipUpdate sh i o tl dt race now).finished = true ∧
      (shipUpdate sh i o tl dt race now).finishTime = sh.finishTime ∧
      (shipUpdate sh i o tl dt race now).lap = sh.lap) ∧
    (sh.finished = false →
      ((shipUpdate sh i o tl dt race now).finished = true →
        (shipUpdate sh i o tl dt race now).finishTime = now) ∧
      ((shipUpdate sh i o tl dt race now).finished = false →
        (shipUpdate sh i o tl dt race now).finishTime = sh.finishTime)) := by
  unfold shipUpdate
  rcases hev : (updatePhysics sh.state i o tl dt race).2 with _ | ev
  · rcases hf : sh.finished <;> simp [hev, hf]
  · rcases hf : sh.finished
    · rcases ev
      · simp [hev, hf]
      · by_cases hlap : 5 < sh.lap + 1
        · simp [hev, hf, hlap]
        · simp [hev, hf, hlap]
    · rcases ev <;> simp [hev, hf]

/-- Claim C9 (counterexample): the degenerate two-point zero-length loop
satisfies the spec's rejection predicate, yet `createTrackCurve` happily
produces a curve over exactly those points — construction does not
fail. -/
theorem c9_no_rejection_cex :
    specDegenerateTrack degeneratePoints ∧
    createTrackCurve degeneratePoints =
      { points := degeneratePoints, closed := true, curveType := CurveType.centripetal } := by
  constructor
  · exact Or.inl (by norm_num [degeneratePoints])
  · rfl

/-- Claim C9 (amended): track construction performs no validation at
all — for every control-point list, degenerate or not, `createTrackCurve`
returns the closed centripetal Catmull-Rom curve over exactly that list;
in particular no input, including those `specDegenerateTrack` flags, is
rejected at track-load time. -/
theorem c9_no_rejection (points : List Vec3) :
    (createTrackCurve points).points = points ∧
    (createTrackCurve points).closed = true ∧
    (createTrackCurve points).curveType = CurveType.centripetal :=
  ⟨rfl, rfl, rfl⟩


theorem Vec3.add_def (a b : Vec3) : a + b = ⟨a.x + b.x, a.y + b.y, a.z + b.z⟩ := rfl

theorem Vec3.dot_self (v : Vec3) : v.dot v = v.lengthSq := by
  simp [Vec3.dot, Vec3.lengthSq]

theorem Vec3.lengthSq_nonneg (v : Vec3) : 0 ≤ v.lengthSq := by
  unfold Vec3.lengthSq
  nlinarith [mul_self_nonneg v.x, mul_self_nonneg v.y, mul_self_nonneg v.z]

theorem Vec3.lengthSq_eq_zero (v : Vec3) : v.lengthSq = 0 ↔ v = ⟨0, 0, 0⟩ := by
  constructor
  · intro h
    unfold Vec3.lengthSq at h
    have hx : v.x = 0 := by nlinarith [sq_nonneg v.x, sq_nonneg v.y, sq_nonneg v.z]
    have hy : v.y = 0 := by nlinarith [sq_nonneg v.x, sq_nonneg v.y, sq_nonneg v.z]
    have hz : v.z = 0 := by nlinarith [sq_nonneg v.x, sq_nonneg v.y, sq_nonneg v.z]
    ext <;> assumption
  · intro h
    rw [h]
    norm_num [Vec3.lengthSq]

theorem Vec3.length_eq_one (v : Vec3) (h : v.lengthSq = 1) : v.length = 1 := by
  unfold Vec3.length
  rw [h]
  exact Real.sqrt_one

theorem Vec3.lengthSq_smul (c : ℝ) (v : Vec3) :
    (Vec3.smul c v).lengthSq = c ^ 2 * v.lengthSq := by
  simp [Vec3.smul, Vec3.lengthSq]
  ring

theorem Vec3.dot_smul_left (c : ℝ) (a b : Vec3) :
    (Vec3.smul c a).dot b = c * a.dot b := by
  simp [Vec3.smul, Vec3.dot]
  ring

theorem Vec3.length_zero : (⟨0, 0, 0⟩ : Vec3).length = 0 := by
  unfold Vec3.length
  rw [show (⟨0, 0, 0⟩ : Vec3).lengthSq = 0 from by norm_num [Vec3.lengthSq]]
  exact Real.sqrt_zero

theorem Vec3.normalize_zero : Vec3.normalize ⟨0, 0, 0⟩ = ⟨0, 0, 0⟩ := by
  unfold Vec3.normalize
  rw [if_pos Vec3.length_zero]

theorem Vec3.normalize_of_ne_zero (v : Vec3) (h : v ≠ ⟨0, 0, 0⟩) :
    Vec3.normalize v = Vec3.smul (1 / v.length) v := by
  have hS : 0 < v.lengthSq :=
    lt_of_le_of_ne (Vec3.lengthSq_nonneg v) (Ne.symm (fun hz => h ((Vec3.lengthSq_eq_zero v).mp hz)))
  have hL : 0 < v.length := Real.sqrt_pos.mpr hS
  unfold Vec3.normalize
  rw [if_neg (ne_of_gt hL)]

theorem Vec3.normalize_lengthSq (v : Vec3) (h : v ≠ ⟨0, 0, 0⟩) :
    (Vec3.normalize v).lengthSq = 1 := by
  have hS : 0 < v.lengthSq :=
    lt_of_le_of_ne (Vec3.lengthSq_nonneg v) (Ne.symm (fun hz => h ((Vec3.lengthSq_eq_zero v).mp hz)))
  have hL : 0 < v.length := Real.sqrt_pos.mpr hS
  have hsq : v.length ^ 2 = v.lengthSq := Real.sq_sqrt hS.le
  rw [Vec3.normalize_of_ne_zero v h, Vec3.lengthSq_smul]
  calc (1 / v.length) ^ 2 * v.lengthSq = v.lengthSq / v.length ^ 2 := by ring
    _ = v.lengthSq / v.lengthSq := by rw [hsq]
    _ = 1 := div_self (ne_of_gt hS)

theorem Vec3.dot_cross_left (a b : Vec3) : (Vec3.cross a b).dot a = 0 := by
  simp [Vec3.cross, Vec3.dot]
  ring

theorem Vec3.dot_cross_right (a b : Vec3) : (Vec3.cross a b).dot b = 0 := by
  simp [Vec3.cross, Vec3.dot]
  ring

theorem Vec3.lengthSq_cross (a b : Vec3) :
    (Vec3.cross a b).lengthSq = a.lengthSq * b.lengthSq - (a.dot b) ^ 2 := by
  simp [Vec3.cross, Vec3.lengthSq, Vec3.dot]
  ring

theorem applyQuaternion_dot (q : Quat) (u v : Vec3)
    (hq : q.x ^ 2 + q.y ^ 2 + q.z ^ 2 + q.w ^ 2 = 1) :
    (u.applyQuaternion q).dot (v.applyQuaternion q) = u.dot v := by
  simp only [Vec3.applyQuaternion, Vec3.cross, Vec3.smul, Vec3.add_def, Vec3.dot]
  linear_combination (4 * ((q.x ^ 2 + q.y ^ 2 + q.z ^ 2) * (u.x * v.x + u.y * v.y + u.z * v.z)
    - (q.x * u.x + q.y * u.y + q.z * u.z) * (q.x * v.x + q.y * v.y + q.z * v.z))) * hq

theorem applyAxisAngle_axis (k : Vec3) (θ : ℝ) : k.applyAxisAngle k θ = k := by
  simp only [Vec3.applyAxisAngle, setFromAxisAngle, Vec3.applyQuaternion, Vec3.cross,
    Vec3.smul, Vec3.add_def]
  ext <;> dsimp <;> ring

theorem setFromAxisAngle_normSq (k : Vec3) (θ : ℝ) (hk : k.lengthSq = 1) :
    (setFromAxisAngle k θ).x ^ 2 + (setFromAxisAngle k θ).y ^ 2 +
      (setFromAxisAngle k θ).z ^ 2 + (setFromAxisAngle k θ).w ^ 2 = 1 := by
  have hk' : k.x * k.x + k.y * k.y + k.z * k.z = 1 := hk
  simp only [setFromAxisAngle]
  linear_combination (Real.sin (θ / 2)) ^ 2 * hk' + Real.sin_sq_add_cos_sq (θ / 2)

theorem applyAxisAngle_dot (k : Vec3) (θ : ℝ) (hk : k.lengthSq = 1) (u v : Vec3) :
    (u.applyAxisAngle k θ).dot (v.applyAxisAngle k θ) = u.dot v :=
  applyQuaternion_dot (setFromAxisAngle k θ) u v (setFromAxisAngle_normSq k θ hk)

theorem applyAxisAngle_dot_axis (k : Vec3) (θ : ℝ) (hk : k.lengthSq = 1) (u : Vec3) :
    (u.applyAxisAngle k θ).dot k = u.dot k := by
  calc (u.applyAxisAngle k θ).dot k
      = (u.applyAxisAngle k θ).dot (k.applyAxisAngle k θ) := by rw [applyAxisAngle_axis]
    _ = u.dot k := applyAxisAngle_dot k θ hk u k

theorem getTrackFrame_tangent (c : Curve3) (t : ℝ) :
    (getTrackFrame c t).tangent = Vec3.normalize (c.getTangent t) := rfl

theorem getTrackFrame_binormal (c : Curve3) (t : ℝ) :
    (getTrackFrame c t).binormal =
      (if (Vec3.normalize (Vec3.cross (Vec3.normalize (c.getTangent t)) worldUp)).length < 0.01
        then (⟨1, 0, 0⟩ : Vec3)
        else Vec3.normalize (Vec3.cross (Vec3.normalize (c.getTangent t)) worldUp)).applyAxisAngle
          (Vec3.normalize (c.getTangent t)) (bankAngleAt c t) := rfl

theorem getTrackFrame_normal (c : Curve3) (t : ℝ) :
    (getTrackFrame c t).normal =
      Vec3.normalize (Vec3.cross (getTrackFrame c t).binormal (getTrackFrame c t).tangent) := rfl

theorem flatBinormal_unit_orthogonal (c : Curve3) (t : ℝ)
    (h : c.getTangent t ≠ ⟨0, 0, 0⟩) :
    ((if (Vec3.normalize (Vec3.cross (Vec3.normalize (c.getTangent t)) worldUp)).length < 0.01
        then (⟨1, 0, 0⟩ : Vec3)
        else Vec3.normalize (Vec3.cross (Vec3.normalize (c.getTangent t)) worldUp)).lengthSq = 1) ∧
    ((if (Vec3.normalize (Vec3.cross (Vec3.normalize (c.getTangent t)) worldUp)).length < 0.01
        then (⟨1, 0, 0⟩ : Vec3)
        else Vec3.normalize (Vec3.cross (Vec3.normalize (c.getTangent t)) worldUp)).dot
          (Vec3.normalize (c.getTangent t)) = 0) := by
  have hT : (Vec3.normalize (c.getTangent t)).lengthSq = 1 := Vec3.normalize_lengthSq _ h
  by_cases hc : Vec3.cross (Vec3.normalize (c.getTangent t)) worldUp = ⟨0, 0, 0⟩
  · have hz : (Vec3.normalize (c.getTangent t)).z = 0 := by
      have := congrArg Vec3.x hc
      simpa [Vec3.cross, worldUp, neg_eq_zero] using this
    have hx : (Vec3.normalize (c.getTangent t)).x = 0 := by
      have := congrArg Vec3.z hc
      simpa [Vec3.cross, worldUp] using this
    rw [hc, Vec3.normalize_zero]
    rw [if_pos]
    · constructor
      · norm_num [Vec3.lengthSq]
      · simp [Vec3.dot, hx]
    · rw [Vec3.length_zero]
      norm_num
  · have hB : (Vec3.normalize (Vec3.cross (Vec3.normalize (c.getTangent t)) worldUp)).lengthSq = 1 :=
      Vec3.normalize_lengthSq _ hc
    have hlen : (Vec3.normalize (Vec3.cross (Vec3.normalize (c.getTangent t)) worldUp)).length = 1 :=
      Vec3.length_eq_one _ hB
    rw [if_neg (by rw [hlen]; norm_num)]
    refine ⟨hB, ?_⟩
    rw [Vec3.normalize_of_ne_zero _ hc, Vec3.dot_smul_left, Vec3.dot_cross_left, mul_zero]

/-- Claim C7: for every curve and parameter whose sampled tangent is
nonzero (the degenerate-tangent case the spec rules out), the frame
`getTrackFrame` returns is orthonormal within the stated 1e-6 tolerance:
tangent, normal and binormal each have length 1 and the three pairwise
dot products vanish.  (The proof gives the exact equalities, of which
the toleranced claim is an immediate weakening.) -/
theorem c7_frame_orthonormal (c : Curve3) (t : ℝ) (h : c.getTangent t ≠ ⟨0, 0, 0⟩) :
    |(getTrackFrame c t).tangent.length - 1| ≤ 1e-6 ∧
    |(getTrackFrame c t).normal.length - 1| ≤ 1e-6 ∧
    |(getTrackFrame c t).binormal.length - 1| ≤ 1e-6 ∧
    |(getTrackFrame c t).tangent.dot (getTrackFrame c t).normal| ≤ 1e-6 ∧
    |(getTrackFrame c t).tangent.dot (getTrackFrame c t).binormal| ≤ 1e-6 ∧
    |(getTrackFrame c t).normal.dot (getTrackFrame c t).binormal| ≤ 1e-6 := by
  have hT : (Vec3.normalize (c.getTangent t)).lengthSq = 1 := Vec3.normalize_lengthSq _ h
  obtain ⟨hB1, hB1T⟩ := flatBinormal_unit_orthogonal c t h
  have hBlenSq : (getTrackFrame c t).binormal.lengthSq = 1 := by
    rw [getTrackFrame_binormal, ← Vec3.dot_self, applyAxisAngle_dot _ _ hT, Vec3.dot_self]
    exact hB1
  have hBT : (getTrackFrame c t).binormal.dot (getTrackFrame c t).tangent = 0 := by
    rw [getTrackFrame_binormal, getTrackFrame_tangent, applyAxisAngle_dot_axis _ _ hT]
    exact hB1T
  have hcrossSq : (Vec3.cross (getTrackFrame c t).binormal (getTrackFrame c t).tangent).lengthSq
      = 1 := by
    rw [Vec3.lengthSq_cross, hBlenSq, hBT, getTrackFrame_tangent, hT]
    norm_num
  have hcrossNe : Vec3.cross (getTrackFrame c t).binormal (getTrackFrame c t).tangent
      ≠ ⟨0, 0, 0⟩ := by
    intro hzero
    rw [← Vec3.lengthSq_eq_zero] at hzero
    rw [hzero] at hcrossSq
    norm_num at hcrossSq
  have hN : (getTrackFrame c t).normal.lengthSq = 1 := by
    rw [getTrackFrame_normal]
    exact Vec3.normalize_lengthSq _ hcrossNe
  have hNB : (getTrackFrame c t).normal.dot (getTrackFrame c t).binormal = 0 := by
    rw [getTrackFrame_normal, Vec3.normalize_of_ne_zero _ hcrossNe, Vec3.dot_smul_left,
      Vec3.dot_cross_left, mul_zero]
  have hNT : (getTrackFrame c t).normal.dot (getTrackFrame c t).tangent = 0 := by
    rw [getTrackFrame_normal, Vec3.normalize_of_ne_zero _ hcrossNe, Vec3.dot_smul_left,
      Vec3.dot_cross_right, mul_zero]
  have hcomm : ∀ a b : Vec3, a.dot b = b.dot a := by
    intro a b
    simp [Vec3.dot]
    ring
  refine ⟨?_, ?_, ?_, ?_, ?_, ?_⟩
  · rw [Vec3.length_eq_one _ (by rw [getTrackFrame_tangent]; exact hT)]
    norm_num
  · rw [Vec3.length_eq_one _ hN]
    norm_num
  · rw [Vec3.length_eq_one _ hBlenSq]
    norm_num
  · rw [hcomm, hNT]
    norm_num
  · rw [hcomm, hBT]
    norm_num
  · rw [hNB]
    norm_num

theorem c7_frame_orthonormal_witness :
    constCurve.getTangent 0 ≠ (⟨0, 0, 0⟩ : Vec3) ∧
    (|(getTrackFrame constCurve 0).tangent.length - 1| ≤ 1e-6 ∧
      |(getTrackFrame constCurve 0).normal.length - 1| ≤ 1e-6 ∧
      |(getTrackFrame constCurve 0).binormal.length - 1| ≤ 1e-6 ∧
      |(getTrackFrame constCurve 0).tangent.dot (getTrackFrame constCurve 0).normal| ≤ 1e-6 ∧
      |(getTrackFrame constCurve 0).tangent.dot (getTrackFrame constCurve 0).binormal| ≤ 1e-6 ∧
      |(getTrackFrame constCurve 0).normal.dot (getTrackFrame constCurve 0).binormal| ≤ 1e-6) :=
  ⟨fun hEq => by
      have := congrArg Vec3.z hEq
      norm_num [constCurve] at this,
   c7_frame_orthonormal constCurve 0 (fun hEq => by
      have := congrArg Vec3.z hEq
      norm_num [constCurve] at this)⟩

end NebulaRush
